import Mathlib

/-!
Verification of the LSIDB data-quality engine (src/main.py, src/ConnectDatabase.py)
against its natural-language specification.

The relational data is shallowly embedded: a table is a list of rows, a row a
list of (column name, value) pairs, and a value is NULL, a string or a rational
number (SQL numerics and the pandas arithmetic are modelled over `Rat`).  Each
SQL query or pandas pipeline of the source is translated into an executable
Lean function over this embedding; fallible operations (queries that raise on
an absent column, mirroring a binder error of the engine) return `Except`.
-/

namespace LSIDB

/-- A cell value of a table: SQL NULL, a string, or a numeric value. -/
inductive Value where
  | null : Value
  | str : String → Value
  | num : Rat → Value
deriving DecidableEq, Repr

/-- A row binds column names to values (a fetched record). -/
abbrev Row := List (String × Value)

/-- A table: its column names (the schema) and its rows. -/
structure Table where
  cols : List String
  rows : List Row
deriving DecidableEq, Repr

/-- Value of column `c` in row `r`; an entry that is absent reads as NULL. -/
def getVal (r : Row) (c : String) : Value :=
  (List.lookup c r).getD Value.null

/-- Numeric view of a value (`some` only for numerics, as in SQL arithmetic). -/
def getNum : Value → Option Rat
  | Value.num q => some q
  | _ => none

/-- `ABS` of the SQL / pandas pipelines. -/
def ratAbs (q : Rat) : Rat := if q < 0 then -q else q

/-- First-occurrence deduplication with an accumulator of already-seen values
(`SELECT DISTINCT` over the scanned rows). -/
def dedupAux {α : Type} [DecidableEq α] : List α → List α → List α
  | [], _ => []
  | v :: vs, seen =>
      if v ∈ seen then dedupAux vs seen else v :: dedupAux vs (v :: seen)

/-- Distinct elements of a list, keeping first occurrences. -/
def dedupFirst {α : Type} [DecidableEq α] (l : List α) : List α := dedupAux l []

/-- `MIN` aggregate over a list of numeric values (NULL when empty). -/
def listMin : List Rat → Option Rat
  | [] => none
  | q :: qs =>
      some (match listMin qs with
            | none => q
            | some m => if q ≤ m then q else m)

/-- `MAX` aggregate over a list of numeric values (NULL when empty). -/
def listMax : List Rat → Option Rat
  | [] => none
  | q :: qs =>
      some (match listMax qs with
            | none => q
            | some m => if q ≤ m then m else q)

/-- A query that references column `c` raises a binder error when the column
is absent from the table's schema (`check_column_range`, categorical and
consistency queries of src/main.py have no handler around this). -/
def requireCol (t : Table) (c : String) : Except String Unit :=
  if c ∈ t.cols then Except.ok () else Except.error ("missing column: " ++ c)

/-- Sequential binder check for every column a query references. -/
def requireCols (t : Table) : List String → Except String Unit
  | [] => Except.ok ()
  | c :: cs =>
      match requireCol t c with
      | Except.error e => Except.error e
      | Except.ok _ => requireCols t cs

/-- The numeric values of column `c` over all rows (NULL rows contribute
nothing, as in SQL aggregates and comparisons). -/
def colVals (t : Table) (c : String) : List Rat :=
  t.rows.filterMap (fun r => getNum (getVal r c))

/-! ## The rule set (`DataQualityChecker.__init__`, src/main.py lines 16-29) -/

/-- The static rule configuration: numeric ranges and categorical
allow-lists, keyed by column name. -/
structure RuleSet where
  numeric_ranges : List (String × Rat × Rat)
  categorical_values : List (String × List String)
deriving DecidableEq, Repr

/-- The rule set hard-coded in `DataQualityChecker.__init__`. -/
def codeRules : RuleSet :=
  { numeric_ranges :=
      [("Unit_price", 0, 1000), ("Quantity", 0, 100),
       ("Rating", 0, 10), ("gross_margin_pct", 0, 100)],
    categorical_values :=
      [("Branch", ["A", "B", "C"]),
       ("Customer_type", ["Member", "Normal"]),
       ("Gender", ["Male", "Female"]),
       ("Payment", ["Cash", "Credit card", "Ewallet"])] }

/-- The check categories of the report (spec section 3's invariant speaks of
the columns the RuleSet declares for each of them). -/
inductive CheckCategory where
  | missing | numeric | categorical | consistency
deriving DecidableEq, Repr

/-- The columns the RuleSet declares for a category.  The rule configuration
of `__init__` declares columns only for the numeric-range and categorical
categories; it declares nothing for missing values or consistency. -/
def declaredColumns (rs : RuleSet) : CheckCategory → List String
  | CheckCategory.missing => []
  | CheckCategory.numeric => rs.numeric_ranges.map Prod.fst
  | CheckCategory.categorical => rs.categorical_values.map Prod.fst
  | CheckCategory.consistency => []

/-! ## check_column_range (src/main.py lines 219-236)

`SELECT COUNT(*), MIN(col), MAX(col) FROM sales WHERE col < min OR col > max`:
the WHERE clause filters the rows before every one of the three aggregates. -/

/-- The WHERE predicate `col < min OR col > max`; NULL (or non-numeric)
values make the comparison unknown, so the row is not selected. -/
def outlierPred (lo hi : Rat) (v : Value) : Bool :=
  match getNum v with
  | some q => decide (q < lo ∨ hi < q)
  | none => false

/-- Result record of one numeric-range check. -/
structure RangeResult where
  outlier_count : Nat
  min_value : Option Rat
  max_value : Option Rat
deriving DecidableEq, Repr

/-- `check_column_range`: one aggregate query whose WHERE clause
`col < lo OR col > hi` restricts COUNT, MIN and MAX alike. -/
def check_column_range (t : Table) (c : String) (lo hi : Rat) : RangeResult :=
  let filtered := t.rows.filter (fun r => outlierPred lo hi (getVal r c))
  { outlier_count := filtered.length,
    min_value := listMin (filtered.filterMap (fun r => getNum (getVal r c))),
    max_value := listMax (filtered.filterMap (fun r => getNum (getVal r c))) }

/-! ## The four CheckRunners -/

/-- `check_missing_values` (lines 47-56): the checked columns are read off the
sales table itself (`SELECT * FROM sales LIMIT 0`), one
`COUNT(*) - COUNT(col)` query per column; every referenced column therefore
exists and the map of counts is always produced. -/
def checkMissingValues (t : Table) : Except String (List (String × Nat)) :=
  Except.ok (t.cols.map
    (fun c => (c, t.rows.countP (fun r => decide (getVal r c = Value.null)))))

/-- Worker loop of `check_numeric_ranges` (lines 59-67): one
`check_column_range` query per configured column; a worker whose column is
absent raises, and `Pool.map` re-raises that error for the whole check. -/
def numRangesAux (t : Table) :
    List (String × Rat × Rat) → Except String (List (String × RangeResult))
  | [] => Except.ok []
  | (c, lo, hi) :: rest =>
      match requireCol t c with
      | Except.error e => Except.error e
      | Except.ok _ =>
          match numRangesAux t rest with
          | Except.error e => Except.error e
          | Except.ok l => Except.ok ((c, check_column_range t c lo hi) :: l)

/-- `check_numeric_ranges`, over the rule set's numeric_ranges entries. -/
def checkNumericRanges (rs : RuleSet) (t : Table) :
    Except String (List (String × RangeResult)) :=
  numRangesAux t rs.numeric_ranges

/-- WHERE predicate of the categorical query, `col NOT IN (v1, ..., vn)`
under SQL three-valued logic: TRUE exactly for a non-NULL value different
from every (non-NULL string) literal of the allow-list. -/
def notInPred (allowed : List String) (v : Value) : Bool :=
  !(decide (v = Value.null)) && allowed.all (fun a => !(decide (v = Value.str a)))

/-- `SELECT DISTINCT col FROM sales WHERE col NOT IN (...)` for one column. -/
def invalidValues (t : Table) (c : String) (allowed : List String) : List Value :=
  dedupFirst ((t.rows.map (fun r => getVal r c)).filter (notInPred allowed))

/-- Loop body of `check_categorical_values` (lines 69-81): the query of a
configured column that is absent from the schema raises and the method has no
handler, so the whole check fails. -/
def catValuesAux (t : Table) :
    List (String × List String) → Except String (List (String × List Value))
  | [] => Except.ok []
  | (c, allowed) :: rest =>
      match requireCol t c with
      | Except.error e => Except.error e
      | Except.ok _ =>
          match catValuesAux t rest with
          | Except.error e => Except.error e
          | Except.ok l => Except.ok ((c, invalidValues t c allowed) :: l)

/-- `check_categorical_values`, over the rule set's categorical entries. -/
def checkCategoricalValues (rs : RuleSet) (t : Table) :
    Except String (List (String × List Value)) :=
  catValuesAux t rs.categorical_values

/-- `check_data_consistency` (lines 83-104): the two fixed checks.  Dates are
embedded as numeric ordinals and compared against the `today` parameter
(CURRENT_DATE).  Rows in which a referenced operand is NULL make the WHERE
comparison unknown and are not selected. -/
def checkDataConsistency (t : Table) (today : Rat) :
    Except String (List (String × List Row)) :=
  match requireCols t ["Invoice_ID", "Total", "Unit_price", "Quantity"] with
  | Except.error e => Except.error e
  | Except.ok _ =>
      match requireCols t ["Invoice_ID", "Date"] with
      | Except.error e => Except.error e
      | Except.ok _ =>
          let tc := t.rows.filterMap (fun r =>
            match getNum (getVal r "Unit_price"), getNum (getVal r "Quantity"),
                  getNum (getVal r "Total") with
            | some up, some q, some tot =>
                let ct := up * q * (1 + 5 / 100)
                let d := ratAbs (tot - ct)
                if d > 1 / 100 then
                  some [("Invoice_ID", getVal r "Invoice_ID"),
                        ("Total", Value.num tot),
                        ("calculated_total", Value.num ct),
                        ("difference", Value.num d)]
                else none
            | _, _, _ => none)
          let fd := t.rows.filterMap (fun r =>
            match getNum (getVal r "Date") with
            | some d =>
                if d > today then
                  some [("Invoice_ID", getVal r "Invoice_ID"),
                        ("Date", Value.num d)]
                else none
            | none => none)
          Except.ok [("total_calculation", tc), ("future_dates", fd)]

/-- Summary record of the report. -/
structure Summary where
  total_records : Nat
  unique_invoices : Nat
  unique_products : Nat
  avg_rating : Option Rat
  avg_margin : Option Rat
deriving DecidableEq, Repr

/-- `AVG` aggregate (NULL over an empty operand list). -/
def avgOpt (l : List Rat) : Option Rat :=
  if l.length = 0 then none else some ((l.foldl (· + ·) 0) / (l.length : Rat))

/-- `COUNT(DISTINCT col)`: NULLs are not counted. -/
def countDistinct (l : List Value) : Nat :=
  (dedupFirst (l.filter (fun v => !(decide (v = Value.null))))).length

/-- The summary aggregation query of `generate_quality_report` (lines
138-156); it references four columns and raises if one is absent. -/
def checkSummary (t : Table) : Except String Summary :=
  match requireCols t ["Invoice_ID", "Product_line", "Rating", "gross_margin_pct"] with
  | Except.error e => Except.error e
  | Except.ok _ =>
      Except.ok
        { total_records := t.rows.length,
          unique_invoices := countDistinct (t.rows.map (fun r => getVal r "Invoice_ID")),
          unique_products := countDistinct (t.rows.map (fun r => getVal r "Product_line")),
          avg_rating := avgOpt (colVals t "Rating"),
          avg_margin := avgOpt (colVals t "gross_margin_pct") }

/-- The full report object. -/
structure Report where
  missing_values : List (String × Nat)
  numeric_ranges : List (String × RangeResult)
  categorical_values : List (String × List Value)
  consistency_checks : List (String × List Row)
  summary_statistics : Summary
deriving DecidableEq, Repr

/-- `generate_quality_report` (lines 127-164): the five tasks are submitted
and then collected with `future.result()` / `pool.map` with no exception
handler, so the first failing check's exception propagates out of the method
and no report object is built. -/
def generate_quality_report (rs : RuleSet) (t : Table) (today : Rat) :
    Except String Report :=
  match checkMissingValues t, checkNumericRanges rs t, checkCategoricalValues rs t,
        checkDataConsistency t today, checkSummary t with
  | Except.ok mv, Except.ok nr, Except.ok cv, Except.ok cc, Except.ok s =>
      Except.ok ⟨mv, nr, cv, cc, s⟩
  | Except.error e, _, _, _, _ => Except.error e
  | _, Except.error e, _, _, _ => Except.error e
  | _, _, Except.error e, _, _ => Except.error e
  | _, _, _, Except.error e, _ => Except.error e
  | _, _, _, _, Except.error e => Except.error e

/-- Whether an `Except` computation produced a value. -/
def exOk {α : Type} : Except String α → Bool
  | Except.ok _ => true
  | Except.error _ => false

/-! ## auto_correct_data (src/main.py lines 166-209)

Each correction is one UPDATE statement without a WHERE clause.  The engine's
reported Count for such an UPDATE is the number of rows the statement touched,
which is every row of `sales` whether or not a value actually changed; the
code stores `result.fetchone()[0]` as the correction's rows-affected count. -/

/-- `TRIM`: remove leading and trailing spaces (the engine's default
trim set for `trim(string)`). -/
def spaceB (c : Char) : Bool := c == ' '

/-- Spaces stripped from both ends of a character list. -/
def trimList (l : List Char) : List Char :=
  ((l.dropWhile spaceB).reverse.dropWhile spaceB).reverse

/-- `TRIM` on a string. -/
def trimStr (s : String) : String := String.mk (trimList s.data)

/-- `TRIM(col)` on a cell: NULL stays NULL, only strings are trimmed. -/
def trimValue : Value → Value
  | Value.str s => Value.str (trimStr s)
  | v => v

/-- The seven text columns the trim_whitespace UPDATE sets. -/
def trimCols : List String :=
  ["Invoice_ID", "Branch", "City", "Customer_type", "Gender",
   "Product_line", "Payment"]

/-- Effect of the trim_whitespace SET list on one (column, value) entry. -/
def trimPair (p : String × Value) : String × Value :=
  if p.1 ∈ trimCols then (p.1, trimValue p.2) else p

/-- The `trim_whitespace` correction: the UPDATE has no WHERE clause, so the
engine updates, and reports as affected, every row of the table. -/
def trim_whitespace (t : Table) : Table × Nat :=
  ({ t with rows := t.rows.map (fun r => r.map trimPair) }, t.rows.length)

/-- `LOWER`: ASCII lower-casing, character by character. -/
def lowerStr (s : String) : String := String.mk (s.data.map Char.toLower)

/-- CASE expression of `fix_case_customer_type`: values whose lower-casing is
`member` / `normal` are replaced by the canonical casing, anything else
(including NULL) passes through. -/
def foldCT (v : Value) : Value :=
  match v with
  | Value.str s =>
      if lowerStr s = "member" then Value.str "Member"
      else if lowerStr s = "normal" then Value.str "Normal"
      else Value.str s
  | v => v

/-- Effect of the fix_case_customer_type SET list on one entry. -/
def ctPair (p : String × Value) : String × Value :=
  if p.1 = "Customer_type" then (p.1, foldCT p.2) else p

/-- The `fix_case_customer_type` correction (again a WHERE-less UPDATE). -/
def fix_case_customer_type (t : Table) : Table × Nat :=
  ({ t with rows := t.rows.map (fun r => r.map ctPair) }, t.rows.length)

/-- CASE expression of `fix_case_gender`. -/
def foldG (v : Value) : Value :=
  match v with
  | Value.str s =>
      if lowerStr s = "male" then Value.str "Male"
      else if lowerStr s = "female" then Value.str "Female"
      else Value.str s
  | v => v

/-- Effect of the fix_case_gender SET list on one entry. -/
def gPair (p : String × Value) : String × Value :=
  if p.1 = "Gender" then (p.1, foldG p.2) else p

/-- The `fix_case_gender` correction (again a WHERE-less UPDATE). -/
def fix_case_gender (t : Table) : Table × Nat :=
  ({ t with rows := t.rows.map (fun r => r.map gPair) }, t.rows.length)

/-- `auto_correct_data`: the three corrections applied in their fixed order,
collecting the reported counts. -/
def auto_correct_data (t : Table) : Table × List (String × Nat) :=
  let r1 := trim_whitespace t
  let r2 := fix_case_customer_type r1.1
  let r3 := fix_case_gender r2.1
  (r3.1, [("trim_whitespace", r1.2), ("fix_case_customer_type", r2.2),
          ("fix_case_gender", r3.2)])

/-- Table state after the trim correction. -/
def applyTrim (t : Table) : Table := (trim_whitespace t).1

/-- Table state after both case-fold corrections (their code order). -/
def applyCaseFolds (t : Table) : Table :=
  (fix_case_gender (fix_case_customer_type t).1).1

/-! ## check_payment_consistency (src/main.py lines 239-292) -/

/-- A projected sales row `{Invoice_ID, Total as sales_total}`. -/
structure SaleRow where
  invoice : Value
  total : Rat
deriving DecidableEq, Repr

/-- A projected payments row `{Invoice_ID, Total as payment_total}`. -/
structure PayRow where
  invoice : Value
  total : Rat
deriving DecidableEq, Repr

/-- A joined record of the inner merge on the invoice key. -/
structure MergedRow where
  invoice : Value
  sales_total : Rat
  payment_total : Rat
deriving DecidableEq, Repr

/-- A joined record with its `difference` column added. -/
structure DiffRow where
  invoice : Value
  sales_total : Rat
  payment_total : Rat
  difference : Rat
deriving DecidableEq, Repr

/-- `SELECT Invoice_ID, COUNT(*) FROM payments GROUP BY Invoice_ID
HAVING COUNT(*) > 1`: one record per distinct key whose group has more than
one row, carrying the group size as payment_count. -/
def duplicate_payments (ps : List PayRow) : List (Value × Nat) :=
  (dedupFirst (ps.map (fun p => p.invoice))).filterMap (fun k =>
    let m := ps.countP (fun p => decide (p.invoice = k))
    if m > 1 then some (k, m) else none)

/-- `pd.merge(sales_df, payments_df, on=Invoice_ID, how=inner,
validate=many_to_many)`: every sales row pairs with every payments row that
carries an equal key. -/
def merge_inner (ss : List SaleRow) (ps : List PayRow) : List MergedRow :=
  ss.flatMap (fun s =>
    (ps.filter (fun p => decide (p.invoice = s.invoice))).map
      (fun p => { invoice := s.invoice, sales_total := s.total,
                  payment_total := p.total }))

/-- `merged_df[difference] = sales_total - payment_total`. -/
def with_difference (l : List MergedRow) : List DiffRow :=
  l.map (fun m =>
    { invoice := m.invoice, sales_total := m.sales_total,
      payment_total := m.payment_total,
      difference := m.sales_total - m.payment_total })

/-- `merged_df[merged_df[difference].abs() > mismatch_threshold]`. -/
def amount_mismatch (ss : List SaleRow) (ps : List PayRow) (thr : Rat) :
    List DiffRow :=
  (with_difference (merge_inner ss ps)).filter
    (fun r => decide (ratAbs r.difference > thr))

/-- `check_payment_consistency`: the discrepancies object. -/
def check_payment_consistency (ss : List SaleRow) (ps : List PayRow)
    (thr : Rat) : List (Value × Nat) × List DiffRow :=
  (duplicate_payments ps, amount_mismatch ss ps thr)

/-! ## reset (src/ConnectDatabase.py lines 29-53)

The database state is embedded as the list of its table names in `SHOW
TABLES` order; the CSV import itself is external I/O and only the name of the
created table is modelled.  The loop body `table_name = table[0]` rebinds the
`table_name` parameter on every iteration before dropping that table, so the
`CREATE TABLE {table_name}` after the loop uses the last iterated name
whenever the loop ran at all. -/

/-- `reset`: drops every existing table (rebinding `table_name` each
iteration) and creates one table from the CSV under the final binding of
`table_name`; returns the new database state and the created table's name. -/
def reset (dbTables : List String) (tableName : String) : List String × String :=
  let finalName := dbTables.foldl (fun _ tbl => tbl) tableName
  ([finalName], finalName)

/-! ## Helper lemmas -/

theorem mem_dedupAux {α : Type} [DecidableEq α] (x : α) :
    ∀ (l seen : List α), x ∈ dedupAux l seen ↔ x ∈ l ∧ x ∉ seen
  | [], seen => by simp [dedupAux]
  | v :: vs, seen => by
      by_cases hv : v ∈ seen
      · rw [dedupAux, if_pos hv, mem_dedupAux x vs seen]
        constructor
        · rintro ⟨h1, h2⟩
          exact ⟨List.mem_cons_of_mem _ h1, h2⟩
        · rintro ⟨h1, h2⟩
          rcases List.mem_cons.mp h1 with h | h
          · subst h; exact absurd hv h2
          · exact ⟨h, h2⟩
      · rw [dedupAux, if_neg hv]
        constructor
        · intro h
          rcases List.mem_cons.mp h with h | h
          · subst h; exact ⟨List.mem_cons_self _ _, hv⟩
          · rcases (mem_dedupAux x vs (v :: seen)).mp h with ⟨h1, h2⟩
            exact ⟨List.mem_cons_of_mem _ h1,
                   fun hs => h2 (List.mem_cons_of_mem _ hs)⟩
        · rintro ⟨h1, h2⟩
          rcases List.mem_cons.mp h1 with h | h
          · subst h; exact List.mem_cons_self _ _
          · by_cases hxv : x = v
            · subst hxv; exact List.mem_cons_self _ _
            · exact List.mem_cons_of_mem _ ((mem_dedupAux x vs (v :: seen)).mpr
                ⟨h, fun hs => (List.mem_cons.mp hs).elim hxv h2⟩)

theorem mem_dedupFirst {α : Type} [DecidableEq α] (x : α) (l : List α) :
    x ∈ dedupFirst l ↔ x ∈ l := by
  rw [dedupFirst, mem_dedupAux]
  simp

theorem foldl_keep_last {α : Type} (l : List α) (a : α) :
    l.foldl (fun _ t => t) a = l.getLastD a := by
  induction l generalizing a with
  | nil => rfl
  | cons x xs ih => rw [List.foldl_cons, ih, List.getLastD_cons]

theorem dropWhile_idem {α : Type} (p : α → Bool) (l : List α) :
    (l.dropWhile p).dropWhile p = l.dropWhile p := by
  induction l with
  | nil => rfl
  | cons a l ih =>
      by_cases h : p a
      · simp [List.dropWhile_cons, h, ih]
      · simp [List.dropWhile_cons, h]

theorem dropWhile_rev_dropWhile {α : Type} (p : α → Bool) (X : List α)
    (hX : X.dropWhile p = X) :
    ((X.reverse.dropWhile p).reverse).dropWhile p =
      (X.reverse.dropWhile p).reverse := by
  cases X with
  | nil => rfl
  | cons a X2 =>
      have hpa : p a = false := by
        by_contra hcon
        have hpa2 : p a = true := Bool.not_eq_false _ |>.mp hcon
        rw [List.dropWhile_cons, if_pos hpa2] at hX
        have hlen := congrArg List.length hX
        have hle := (List.dropWhile_sublist (l := X2) p).length_le
        simp only [List.length_cons] at hlen
        omega
      rw [List.reverse_cons, List.dropWhile_append]
      by_cases he : (X2.reverse.dropWhile p).isEmpty
      · rw [if_pos he]
        simp [List.dropWhile_cons, hpa]
      · rw [if_neg he]
        simp [List.reverse_append, List.dropWhile_cons, hpa]

theorem trimList_idem (l : List Char) : trimList (trimList l) = trimList l := by
  unfold trimList
  have h1 := dropWhile_rev_dropWhile spaceB (l.dropWhile spaceB)
    (dropWhile_idem spaceB l)
  rw [h1, List.reverse_reverse, dropWhile_idem]

theorem trimStr_idem (s : String) : trimStr (trimStr s) = trimStr s :=
  congrArg String.mk (trimList_idem s.data)

theorem trimValue_idem (v : Value) : trimValue (trimValue v) = trimValue v := by
  cases v <;> simp [trimValue, trimStr_idem]

theorem trimPair_idem (p : String × Value) : trimPair (trimPair p) = trimPair p := by
  by_cases h : p.1 ∈ trimCols
  · simp [trimPair, h, trimValue_idem]
  · simp [trimPair, h]

theorem trimRow_idem (r : Row) : (r.map trimPair).map trimPair = r.map trimPair := by
  rw [List.map_map]
  exact List.map_congr_left (fun p _ => trimPair_idem p)

theorem filter_length_eq_countP_vals (rows : List Row) (c : String) (lo hi : Rat) :
    (rows.filter (fun r => outlierPred lo hi (getVal r c))).length =
      (rows.filterMap (fun r => getNum (getVal r c))).countP
        (fun q => decide (q < lo ∨ hi < q)) := by
  induction rows with
  | nil => rfl
  | cons r rest ih =>
      cases hv : getNum (getVal r c) with
      | none =>
          have hop : outlierPred lo hi (getVal r c) = false := by
            simp [outlierPred, hv]
          rw [List.filter_cons_of_neg (by simp [hop]), @List.filterMap_cons_none Row Rat (fun r => getNum (getVal r c)) r rest hv]
          exact ih
      | some q =>
          by_cases hq : q < lo ∨ hi < q
          · have hop : outlierPred lo hi (getVal r c) = true := by
              simp [outlierPred, hv, hq]
            rw [List.filter_cons_of_pos (by simp [hop]),
                @List.filterMap_cons_some Row Rat (fun r => getNum (getVal r c)) r rest q hv, List.length_cons,
                List.countP_cons, ih]
            simp [hq]
          · have hop : outlierPred lo hi (getVal r c) = false := by
              simp only [outlierPred, hv]
              simpa using hq
            rw [List.filter_cons_of_neg (by simp [hop]),
                @List.filterMap_cons_some Row Rat (fun r => getNum (getVal r c)) r rest q hv, List.countP_cons, ih]
            simp [hq]

theorem filter_vals_eq_vals_filter (rows : List Row) (c : String) (lo hi : Rat) :
    (rows.filter (fun r => outlierPred lo hi (getVal r c))).filterMap
        (fun r => getNum (getVal r c)) =
      (rows.filterMap (fun r => getNum (getVal r c))).filter
        (fun q => decide (q < lo ∨ hi < q)) := by
  induction rows with
  | nil => rfl
  | cons r rest ih =>
      cases hv : getNum (getVal r c) with
      | none =>
          have hop : outlierPred lo hi (getVal r c) = false := by
            simp [outlierPred, hv]
          rw [List.filter_cons_of_neg (by simp [hop]), @List.filterMap_cons_none Row Rat (fun r => getNum (getVal r c)) r rest hv]
          exact ih
      | some q =>
          by_cases hq : q < lo ∨ hi < q
          · have hop : outlierPred lo hi (getVal r c) = true := by
              simp [outlierPred, hv, hq]
            rw [List.filter_cons_of_pos (by simp [hop]),
                @List.filterMap_cons_some Row Rat (fun r => getNum (getVal r c)) r
                  (List.filter (fun r => outlierPred lo hi (getVal r c)) rest) q hv,
                @List.filterMap_cons_some Row Rat (fun r => getNum (getVal r c)) r rest q hv,
                List.filter_cons_of_pos (by simpa using hq), ih]
          · have hop : outlierPred lo hi (getVal r c) = false := by
              simp only [outlierPred, hv]
              simpa using hq
            rw [List.filter_cons_of_neg (by simp [hop]),
                @List.filterMap_cons_some Row Rat (fun r => getNum (getVal r c)) r rest q hv,
                List.filter_cons_of_neg (by simpa using hq), ih]

theorem numRangesAux_keys (t : Table) (rules : List (String × Rat × Rat)) :
    ∀ l, numRangesAux t rules = Except.ok l → l.map Prod.fst = rules.map Prod.fst := by
  induction rules with
  | nil =>
      intro l h
      simp only [numRangesAux, Except.ok.injEq] at h
      rw [← h]
      rfl
  | cons hd tl ih =>
      obtain ⟨c, lo, hi⟩ := hd
      intro l h
      rw [numRangesAux] at h
      cases hreq : requireCol t c with
      | error e => rw [hreq] at h; exact absurd h (by simp)
      | ok u =>
          rw [hreq] at h
          cases haux : numRangesAux t tl with
          | error e => rw [haux] at h; exact absurd h (by simp)
          | ok l2 =>
              rw [haux] at h
              simp only [Except.ok.injEq] at h
              rw [← h, List.map_cons, List.map_cons, ih l2 haux]

theorem catValuesAux_keys (t : Table) (rules : List (String × List String)) :
    ∀ l, catValuesAux t rules = Except.ok l → l.map Prod.fst = rules.map Prod.fst := by
  induction rules with
  | nil =>
      intro l h
      simp only [catValuesAux, Except.ok.injEq] at h
      rw [← h]
      rfl
  | cons hd tl ih =>
      obtain ⟨c, allowed⟩ := hd
      intro l h
      rw [catValuesAux] at h
      cases hreq : requireCol t c with
      | error e => rw [hreq] at h; exact absurd h (by simp)
      | ok u =>
          rw [hreq] at h
          cases haux : catValuesAux t tl with
          | error e => rw [haux] at h; exact absurd h (by simp)
          | ok l2 =>
              rw [haux] at h
              simp only [Except.ok.injEq] at h
              rw [← h, List.map_cons, List.map_cons, ih l2 haux]

theorem trim_foldCT (v : Value) (h : trimValue v = v) :
    trimValue (foldCT v) = foldCT v := by
  cases v with
  | null => rfl
  | num q => rfl
  | str s =>
      by_cases h1 : lowerStr s = "member"
      · simp only [foldCT, h1, if_pos]
        decide
      · by_cases h2 : lowerStr s = "normal"
        · simp only [foldCT, h1, h2, if_neg, if_pos]
          decide
        · simpa only [foldCT, h1, h2, if_neg] using h

theorem trim_foldG (v : Value) (h : trimValue v = v) :
    trimValue (foldG v) = foldG v := by
  cases v with
  | null => rfl
  | num q => rfl
  | str s =>
      by_cases h1 : lowerStr s = "male"
      · simp only [foldG, h1, if_pos]
        decide
      · by_cases h2 : lowerStr s = "female"
        · simp only [foldG, h1, h2, if_neg, if_pos]
          decide
        · simpa only [foldG, h1, h2, if_neg] using h

theorem correctionsPair_comm (p : String × Value)
    (h : p.1 = "Customer_type" ∨ p.1 = "Gender" → trimValue p.2 = p.2) :
    trimPair (gPair (ctPair p)) = gPair (ctPair (trimPair p)) := by
  obtain ⟨c, v⟩ := p
  by_cases hc : c = "Customer_type"
  · subst hc
    have hv : trimValue v = v := h (Or.inl rfl)
    simp [ctPair, gPair, trimPair, trimCols, hv, trim_foldCT v hv]
  · by_cases hg : c = "Gender"
    · subst hg
      have hv : trimValue v = v := h (Or.inr rfl)
      simp [ctPair, gPair, trimPair, trimCols, hv, trim_foldG v hv]
    · by_cases hm : c ∈ trimCols
      · simp [ctPair, gPair, trimPair, hc, hg, hm]
      · simp [ctPair, gPair, trimPair, hc, hg, hm]

/-! ## Concrete tables used as inputs of the witnesses and counterexamples -/

/-- A sales table lacking the configured column `Quantity`. -/
def tMissingCol : Table := ⟨["Invoice_ID", "Unit_price"], []⟩

/-- A sales table whose Rating column holds an in-range and an out-of-range
value. -/
def tOut : Table :=
  ⟨["Rating"], [[("Rating", Value.num 5)], [("Rating", Value.num 50)]]⟩

/-- A sales table with boundary, and out-of-range, Rating values. -/
def tBound : Table :=
  ⟨["Rating"], [[("Rating", Value.num 0)], [("Rating", Value.num 10)],
                [("Rating", Value.num 11)]]⟩

/-- A sales table with one column that no rule category declares. -/
def tCity : Table := ⟨["City"], []⟩

/-- A sales table with every column the checks and the summary reference. -/
def tAll : Table :=
  ⟨["Invoice_ID", "Branch", "City", "Customer_type", "Gender", "Product_line",
    "Payment", "Unit_price", "Quantity", "Rating", "gross_margin_pct",
    "Total", "Date"], []⟩

/-- The numeric-range result over the empty `tAll`. -/
def nrAll : List (String × RangeResult) :=
  [("Unit_price", ⟨0, none, none⟩), ("Quantity", ⟨0, none, none⟩),
   ("Rating", ⟨0, none, none⟩), ("gross_margin_pct", ⟨0, none, none⟩)]

/-- The categorical result over the empty `tAll`. -/
def cvAll : List (String × List Value) :=
  [("Branch", []), ("Customer_type", []), ("Gender", []), ("Payment", [])]

/-- A sales table with a single row of untrimmed text. -/
def tOneRow : Table := ⟨["Invoice_ID"], [[("Invoice_ID", Value.str " A1 ")]]⟩

/-- A sales table whose Customer_type value has a leading space. -/
def tUntrimmed : Table :=
  ⟨["Customer_type"], [[("Customer_type", Value.str " member")]]⟩

/-- A sales table whose Customer_type and Gender values carry no leading or
trailing spaces. -/
def tTrimmed : Table :=
  ⟨["Customer_type", "Gender"],
   [[("Customer_type", Value.str "member"), ("Gender", Value.str "MALE")]]⟩

/-- A sales table with a NULL Gender value. -/
def tNull : Table := ⟨["Gender"], [[("Gender", Value.null)]]⟩

/-- A payments projection with a duplicated invoice key. -/
def psW : List PayRow :=
  [⟨Value.str "INV7", 10⟩, ⟨Value.str "INV7", 5⟩, ⟨Value.str "I1", 3⟩]

/-- A one-row sales projection for the reconciliation witness. -/
def ssW : List SaleRow := [⟨Value.str "I1", 10⟩]

/-- A one-row payments projection whose total differs from the sale by 3. -/
def psW2 : List PayRow := [⟨Value.str "I1", 7⟩]

/-! ## Claim C1 — fault isolation of report generation -/

/-- C1, counterexample: with the code's rule set and a sales table lacking
the configured column `Quantity`, the numeric-range CheckRunner raises, and
`generate_quality_report` does not return a Report at all — its slot is not
filled with a default; the whole run aborts. -/
theorem c1_counterexample :
    exOk (checkNumericRanges codeRules tMissingCol) = false ∧
    exOk (generate_quality_report codeRules tMissingCol 0) = false := by
  constructor <;> rfl

/-- C1, amended: `generate_quality_report` returns a Report exactly when
every CheckRunner and the summary succeed; any single failing check makes
the whole generation fail instead of being replaced by a default. -/
theorem c1_report_iff_all_checks (rs : RuleSet) (t : Table) (today : Rat) :
    exOk (generate_quality_report rs t today) =
      (exOk (checkMissingValues t) && exOk (checkNumericRanges rs t) &&
       exOk (checkCategoricalValues rs t) && exOk (checkDataConsistency t today) &&
       exOk (checkSummary t)) := by
  unfold generate_quality_report
  cases checkMissingValues t <;> cases checkNumericRanges rs t <;>
    cases checkCategoricalValues rs t <;> cases checkDataConsistency t today <;>
    cases checkSummary t <;> rfl

/-! ## Claim C2 — outlier_count counts exactly the strictly-outside rows -/

/-- C2: `outlier_count` equals the number of rows whose numeric value is
strictly below `lo` or strictly above `hi`; restricting a table to rows whose
value equals a boundary of a well-formed range yields zero outliers. -/
theorem c2_outlier_count_strict (t : Table) (c : String) (lo hi : Rat) :
    (check_column_range t c lo hi).outlier_count =
      (colVals t c).countP (fun q => decide (q < lo ∨ hi < q)) ∧
    (lo ≤ hi →
      (check_column_range
        { cols := t.cols,
          rows := t.rows.filter (fun r =>
            decide (getVal r c = Value.num lo) ||
            decide (getVal r c = Value.num hi)) }
        c lo hi).outlier_count = 0) := by
  constructor
  · exact filter_length_eq_countP_vals t.rows c lo hi
  · intro hle
    show (List.filter _ _).length = 0
    rw [List.length_eq_zero]
    rw [List.filter_eq_nil_iff]
    intro r hr
    have hb := (List.mem_filter.mp hr).2
    rcases Bool.or_eq_true_iff.mp hb with h | h
    · have hv : getVal r c = Value.num lo := of_decide_eq_true h
      simp only [outlierPred, hv, getNum]
      intro hcon
      rcases of_decide_eq_true hcon with h2 | h2
      · exact absurd h2 (lt_irrefl lo)
      · exact absurd h2 (not_lt.mpr hle)
    · have hv : getVal r c = Value.num hi := of_decide_eq_true h
      simp only [outlierPred, hv, getNum]
      intro hcon
      rcases of_decide_eq_true hcon with h2 | h2
      · exact absurd h2 (not_lt.mpr hle)
      · exact absurd h2 (lt_irrefl hi)

/-- C2 witness: a table whose Rating rows hold the boundary values 0 and 10
and the outlier 11, over the range [0, 10]: keeping only the boundary rows,
none is counted as an outlier. -/
theorem c2_outlier_count_strict_witness :
    (check_column_range
      { cols := tBound.cols,
        rows := tBound.rows.filter (fun r =>
          decide (getVal r "Rating" = Value.num 0) ||
          decide (getVal r "Rating" = Value.num 10)) }
      "Rating" 0 10).outlier_count = 0 :=
  (c2_outlier_count_strict tBound "Rating" 0 10).2 (by decide)

/-! ## Claim C3 — duplicate payment detection -/

/-- C3: an invoice key appears in `duplicate_payments` exactly when it occurs
more than once in the payments table, and any record with that key carries the
occurrence count as its payment_count. -/
theorem c3_duplicate_payments_exact (ps : List PayRow) (k : Value) :
    ((∃ e, e ∈ duplicate_payments ps ∧ e.1 = k) ↔
      1 < ps.countP (fun p => decide (p.invoice = k))) ∧
    (∀ e, e ∈ duplicate_payments ps → e.1 = k →
      e.2 = ps.countP (fun p => decide (p.invoice = k))) := by
  constructor
  · constructor
    · rintro ⟨e, he, hek⟩
      rcases List.mem_filterMap.mp he with ⟨k2, hk2, hf⟩
      by_cases hm : 1 < ps.countP (fun p => decide (p.invoice = k2))
      · rw [if_pos hm] at hf
        have he2 : e = (k2, ps.countP (fun p => decide (p.invoice = k2))) :=
          ((Option.some.injEq _ _).mp hf).symm
        have hk2k : k2 = k := by rw [he2] at hek; exact hek
        rw [← hk2k]
        exact hm
      · rw [if_neg hm] at hf
        exact absurd hf (by simp)
    · intro hm
      have h0 : 0 < ps.countP (fun p => decide (p.invoice = k)) :=
        Nat.lt_trans Nat.zero_lt_one hm
      rcases List.countP_pos_iff.mp h0 with ⟨p, hp, hpk⟩
      have hk : k ∈ ps.map (fun p => p.invoice) :=
        List.mem_map.mpr ⟨p, hp, of_decide_eq_true hpk⟩
      have hk2 : k ∈ dedupFirst (ps.map (fun p => p.invoice)) :=
        (mem_dedupFirst k _).mpr hk
      exact ⟨(k, ps.countP (fun p => decide (p.invoice = k))),
             List.mem_filterMap.mpr ⟨k, hk2, by rw [if_pos hm]⟩, rfl⟩
  · intro e he hek
    rcases List.mem_filterMap.mp he with ⟨k2, hk2, hf⟩
    by_cases hm : 1 < ps.countP (fun p => decide (p.invoice = k2))
    · rw [if_pos hm] at hf
      have he2 : e = (k2, ps.countP (fun p => decide (p.invoice = k2))) :=
        (Option.some.injEq _ _).mp hf |>.symm
      have hk2k : k2 = k := by rw [he2] at hek; exact hek
      rw [he2, hk2k]
    · rw [if_neg hm] at hf
      exact absurd hf (by simp)

/-- C3 witness: in `psW` the key INV7 occurs twice, so it appears among the
duplicate payments with payment_count 2; the key I1 occurs once. -/
theorem c3_duplicate_payments_exact_witness :
    (∃ e, e ∈ duplicate_payments psW ∧ e.1 = Value.str "INV7") ∧
    ((Value.str "INV7", 2) : Value × Nat).2 =
      psW.countP (fun p => decide (p.invoice = Value.str "INV7")) :=
  ⟨(c3_duplicate_payments_exact psW (Value.str "INV7")).1.mpr (by decide),
   (c3_duplicate_payments_exact psW (Value.str "INV7")).2
     (Value.str "INV7", 2) (by decide) rfl⟩

/-! ## Claim C4 — amount mismatch selection -/

/-- C4: a joined pair appears in `amount_mismatch` exactly when the absolute
difference of its totals exceeds the threshold, and every mismatch record
carries difference = sales_total - payment_total. -/
theorem c4_amount_mismatch_exact (ss : List SaleRow) (ps : List PayRow)
    (thr : Rat) :
    (∀ m, m ∈ merge_inner ss ps →
      (({ invoice := m.invoice, sales_total := m.sales_total,
          payment_total := m.payment_total,
          difference := m.sales_total - m.payment_total } : DiffRow)
          ∈ amount_mismatch ss ps thr ↔
        ratAbs (m.sales_total - m.payment_total) > thr)) ∧
    (∀ r, r ∈ amount_mismatch ss ps thr →
      r.difference = r.sales_total - r.payment_total) := by
  constructor
  · intro m hm
    constructor
    · intro hmem
      exact of_decide_eq_true (List.mem_filter.mp hmem).2
    · intro hgt
      apply List.mem_filter.mpr
      refine ⟨?_, decide_eq_true hgt⟩
      exact List.mem_map.mpr ⟨m, hm, rfl⟩
  · intro r hr
    have h1 := (List.mem_filter.mp hr).1
    rcases List.mem_map.mp h1 with ⟨m, hm2, he⟩
    rw [← he]

/-- C4 witness: sale (I1, 10) joined with payment (I1, 7) has absolute
difference 3 > 1 and so appears in the mismatches, carrying difference
10 - 7. -/
theorem c4_amount_mismatch_exact_witness :
    (({ invoice := Value.str "I1", sales_total := 10, payment_total := 7,
        difference := 10 - 7 } : DiffRow) ∈ amount_mismatch ssW psW2 1) ∧
    ({ invoice := Value.str "I1", sales_total := 10, payment_total := 7,
       difference := 10 - 7 } : DiffRow).difference = 10 - 7 := by
  have hmem :=
    ((c4_amount_mismatch_exact ssW psW2 1).1
      { invoice := Value.str "I1", sales_total := 10, payment_total := 7 }
      (by decide)).mpr (by norm_num [ratAbs])
  exact ⟨hmem, (c4_amount_mismatch_exact ssW psW2 1).2 _ hmem⟩

/-! ## Claim C5 — trim_whitespace second-pass count -/

/-- C5, counterexample: on a one-row table whose value is already trimmed by
a first pass, a second `trim_whitespace` reports rows-affected count 1
(every row of the table), not 0. -/
theorem c5_counterexample :
    (trim_whitespace (applyTrim tOneRow)).2 = 1 ∧
    ¬ (trim_whitespace (applyTrim tOneRow)).2 = 0 := by
  constructor <;> decide

/-- C5, amended: a second `trim_whitespace` leaves the table state unchanged,
but reports a rows-affected count equal to the table's total row count (the
UPDATE has no WHERE clause), which is 0 only for an empty table. -/
theorem c5_trim_second_pass (t : Table) :
    trim_whitespace (applyTrim t) = (applyTrim t, t.rows.length) := by
  unfold applyTrim trim_whitespace
  have hrows : (t.rows.map (fun r => r.map trimPair)).map
      (fun r => r.map trimPair) = t.rows.map (fun r => r.map trimPair) := by
    rw [List.map_map]
    exact List.map_congr_left (fun r _ => trimRow_idem r)
  rw [hrows, List.length_map]

/-! ## Claim C6 — min_value / max_value of the range check -/

/-- C6, counterexample: Rating values 5 and 50 under range [0, 10]: the
query's WHERE clause filters to the outlier rows before MIN, so the reported
min_value is 50, not the column minimum 5. -/
theorem c6_counterexample :
    (check_column_range tOut "Rating" 0 10).min_value = some 50 ∧
    listMin (colVals tOut "Rating") = some 5 ∧
    ¬ (check_column_range tOut "Rating" 0 10).min_value =
        listMin (colVals tOut "Rating") := by
  refine ⟨by decide, by decide, by decide⟩

/-- C6, amended: min_value and max_value are the MIN and MAX over the values
of the outlier rows only (the rows strictly outside [lo, hi]; NULL when no
row is an outlier), not over all of the column's values. -/
theorem c6_minmax_over_outliers (t : Table) (c : String) (lo hi : Rat) :
    (check_column_range t c lo hi).min_value =
      listMin ((colVals t c).filter (fun q => decide (q < lo ∨ hi < q))) ∧
    (check_column_range t c lo hi).max_value =
      listMax ((colVals t c).filter (fun q => decide (q < lo ∨ hi < q))) := by
  constructor
  · exact congrArg listMin (filter_vals_eq_vals_filter t.rows c lo hi)
  · exact congrArg listMax (filter_vals_eq_vals_filter t.rows c lo hi)

/-! ## Claim C7 — order of trim and case-fold corrections -/

/-- C7, counterexample: on Customer_type value " member", trim before
case-fold yields "Member" while case-fold before trim yields "member" — the
two orders produce different final table states. -/
theorem c7_counterexample :
    ¬ applyTrim (applyCaseFolds tUntrimmed) =
        applyCaseFolds (applyTrim tUntrimmed) := by
  decide

/-- C7, amended: the corrections commute on every table whose Customer_type
and Gender values carry no leading or trailing spaces; only such untrimmed
values break commutation, because the case-fold's LOWER comparison never
matches an untrimmed value. -/
theorem c7_commute_on_trimmed (t : Table)
    (h : ∀ r ∈ t.rows, ∀ p ∈ r,
      (p.1 = "Customer_type" ∨ p.1 = "Gender") → trimValue p.2 = p.2) :
    applyTrim (applyCaseFolds t) = applyCaseFolds (applyTrim t) := by
  unfold applyTrim applyCaseFolds trim_whitespace fix_case_customer_type
    fix_case_gender
  simp only []
  congr 1
  rw [List.map_map, List.map_map, List.map_map, List.map_map]
  apply List.map_congr_left
  intro r hr
  show ((r.map ctPair).map gPair).map trimPair =
    ((r.map trimPair).map ctPair).map gPair
  rw [List.map_map, List.map_map, List.map_map, List.map_map]
  apply List.map_congr_left
  intro p hp
  exact correctionsPair_comm p (h r hr p hp)

/-- C7 witness: on a table whose Customer_type and Gender values are already
trimmed, both orders of the corrections agree. -/
theorem c7_commute_on_trimmed_witness :
    applyTrim (applyCaseFolds tTrimmed) = applyCaseFolds (applyTrim tTrimmed) :=
  c7_commute_on_trimmed tTrimmed (by decide)

/-! ## Claim C8 — result keys versus the RuleSet's declared columns -/

/-- C8, counterexample: the missing-values check reports on every column of
the sales table; on a table with column City its result has key City, which
is not among the columns the RuleSet declares for the missing-values
category (it declares none). -/
theorem c8_counterexample :
    checkMissingValues tCity = Except.ok [("City", 0)] ∧
    ¬ "City" ∈ declaredColumns codeRules CheckCategory.missing := by
  refine ⟨rfl, by decide⟩

/-- C8, amended: the numeric-range and categorical results' keys equal the
RuleSet's declared columns for their categories, but the missing-values
result's keys are all columns of the sales table and the consistency result's
keys are the two fixed check names — neither drawn from the RuleSet. -/
theorem c8_result_keys (rs : RuleSet) (t : Table) :
    (∀ l, checkNumericRanges rs t = Except.ok l →
      l.map Prod.fst = declaredColumns rs CheckCategory.numeric) ∧
    (∀ l, checkCategoricalValues rs t = Except.ok l →
      l.map Prod.fst = declaredColumns rs CheckCategory.categorical) ∧
    (∀ l, checkMissingValues t = Except.ok l → l.map Prod.fst = t.cols) ∧
    (∀ l today, checkDataConsistency t today = Except.ok l →
      l.map Prod.fst = ["total_calculation", "future_dates"]) := by
  refine ⟨numRangesAux_keys t rs.numeric_ranges,
          catValuesAux_keys t rs.categorical_values, ?_, ?_⟩
  · intro l h
    simp only [checkMissingValues, Except.ok.injEq] at h
    rw [← h, List.map_map]
    exact List.map_id' t.cols
  · intro l today h
    rw [checkDataConsistency] at h
    cases h1 : requireCols t ["Invoice_ID", "Total", "Unit_price", "Quantity"] with
    | error e => rw [h1] at h; exact absurd h (by simp)
    | ok u =>
        rw [h1] at h
        cases h2 : requireCols t ["Invoice_ID", "Date"] with
        | error e => rw [h2] at h; exact absurd h (by simp)
        | ok u2 =>
            rw [h2] at h
            simp only [Except.ok.injEq] at h
            rw [← h]
            rfl

/-- C8 witness: over the empty table holding every referenced column, all
four checks succeed and their keys are as the amended claim states. -/
theorem c8_result_keys_witness :
    nrAll.map Prod.fst = declaredColumns codeRules CheckCategory.numeric ∧
    cvAll.map Prod.fst = declaredColumns codeRules CheckCategory.categorical ∧
    (tAll.cols.map (fun c => (c, (0 : Nat)))).map Prod.fst = tAll.cols ∧
    ([("total_calculation", ([] : List Row)),
      ("future_dates", ([] : List Row))].map Prod.fst) =
      ["total_calculation", "future_dates"] :=
  ⟨(c8_result_keys codeRules tAll).1 nrAll rfl,
   (c8_result_keys codeRules tAll).2.1 cvAll rfl,
   (c8_result_keys codeRules tAll).2.2.1 (tAll.cols.map (fun c => (c, 0))) rfl,
   (c8_result_keys codeRules tAll).2.2.2
     [("total_calculation", []), ("future_dates", [])] 0 rfl⟩

/-! ## Claim C9 — reset names the new table after the last dropped one -/

/-- C9: the loop of `reset` rebinds table_name, so the created table carries
the name of the last table dropped whenever the database held any table, and
the caller-supplied name exactly when it was empty. -/
theorem c9_reset_table_name (tables : List String) (name : String) :
    (∀ h : ¬ tables = [], (reset tables name).2 = tables.getLast h) ∧
    (tables = [] → (reset tables name).2 = name) := by
  constructor
  · intro h
    show tables.foldl (fun _ tbl => tbl) name = tables.getLast h
    rw [foldl_keep_last, List.getLastD_eq_getLast?,
        List.getLast?_eq_getLast tables h, Option.getD_some]
  · intro h
    subst h
    rfl

/-- C9 witness: with tables [sales, payments] the created table is named
payments, not the supplied fresh name; with no tables it is named fresh. -/
theorem c9_reset_table_name_witness :
    (reset ["sales", "payments"] "fresh").2 = "payments" ∧
    (reset ([] : List String) "fresh").2 = "fresh" :=
  ⟨(c9_reset_table_name ["sales", "payments"] "fresh").1 (by decide),
   (c9_reset_table_name [] "fresh").2 rfl⟩

/-! ## Claim C10 — NULLs are invisible to the categorical check -/

/-- C10: a NULL value never appears in a column's invalid-values sequence
(the NOT IN predicate is never true of NULL); concretely, a table whose
Gender is NULL yields an empty invalid-values sequence although its row does
not hold one of the allowed values. -/
theorem c10_null_never_reported :
    (∀ (t : Table) (c : String) (allowed : List String),
      ¬ Value.null ∈ invalidValues t c allowed) ∧
    invalidValues tNull "Gender" ["Male", "Female"] = [] ∧
    getVal (tNull.rows.getD 0 []) "Gender" = Value.null ∧
    ¬ Value.null ∈ ["Male", "Female"].map Value.str := by
  refine ⟨?_, by decide, by decide, by decide⟩
  intro t c allowed hmem
  have h1 := (mem_dedupFirst _ _).mp hmem
  have h2 := (List.mem_filter.mp h1).2
  simp [notInPred] at h2

/-- C10 witness: instantiated at the table whose only Gender value is NULL. -/
theorem c10_null_never_reported_witness :
    ¬ Value.null ∈ invalidValues tNull "Gender" ["Male", "Female"] :=
  c10_null_never_reported.1 tNull "Gender" ["Male", "Female"]

end LSIDB
